import Mathlib

/-!
# Verification of the mite-cli record pipeline and name resolver

Shallow embedding of the list/filter/sort/format pipeline of the customers
command (`mite-customers`), the name-resolution logic of `mite-new.js`, and
the shell-completion module `customer-update.js`.

JavaScript semantics modelled here:
* scalar values are `Value` (string / number / boolean / null / undefined);
  property access on a missing key yields `undefined`;
* JS `String(v)` coercion is `Value.jsString`; JS truthiness is `¬ Value.falsy`;
* `Array.prototype.sort` is required by ES2019 to be stable, so it is embedded
  as `List.mergeSort` (a stable sort) over the comparator;
* `String.prototype.indexOf(needle) > -1` is `containsSeq needle.data hay.data`;
* `process.exit(n)` is an `Outcome.exited n` result; `console.log` output is
  collected in a log list where the claims mention it.

Numbers that occur in the modelled code paths (record ids, rates in cents)
are integers, so `Value.num` carries an `Int`.
-/

namespace MiteCli

/-- A JavaScript scalar value as it occurs in the records handled by the CLI. -/
inductive Value
  | str (s : String)
  | num (n : Int)
  | bool (b : Bool)
  | null
  | undefined
deriving DecidableEq, Repr

/-- JS `String(v)` coercion for the scalar values of the model. -/
def Value.jsString : Value → String
  | .str s => s
  | .num n => toString n
  | .bool b => if b then "true" else "false"
  | .null => "null"
  | .undefined => "undefined"

/-- JS falsiness of a scalar value (`!v` in the source). -/
def Value.falsy : Value → Bool
  | .str s => s == ""
  | .num n => n == 0
  | .bool b => !b
  | .null => true
  | .undefined => true

/-- A record fetched from the store: a flat mapping from attribute names to
scalar values (`customer`, `project`, … objects of the JS source). -/
abbrev Record := List (String × Value)

/-- JS property access `record[key]`: the attribute value, or `undefined` when
the key is absent. -/
def getAttr (r : Record) (k : String) : Value :=
  (r.lookup k).getD .undefined

/-- `needle` occurs as a contiguous subsequence of `hay`; embeds the JS test
`hay.indexOf(needle) > -1` on strings (as lists of characters). -/
def containsSeq (needle : List Char) : List Char → Bool
  | [] => needle.isEmpty
  | c :: rest => needle.isPrefixOf (c :: rest) || containsSeq needle rest

/-- JS `hay.indexOf(needle) > -1` on strings. -/
def jsIncludes (hay needle : String) : Bool :=
  containsSeq needle.data hay.data

/-- JS `s.toUpperCase()`, modelled character-wise with Lean's ASCII case
mapping (`Char.toUpper`). -/
def jsToUpper (s : String) : String :=
  ⟨s.data.map Char.toUpper⟩

/-- JS `s.toLowerCase()`, modelled character-wise with Lean's ASCII case
mapping (`Char.toLower`). -/
def jsToLower (s : String) : String :=
  ⟨s.data.map Char.toLower⟩

end MiteCli

namespace MiteCli

/-! ## Name Resolver (`src/source/mite-new.js`, `checkResults`) -/

/-- A selectable candidate as built by `getProjectChoices` / `getServiceChoices`:
a display `name` and an identifier `value` (`null` is `none`). -/
structure Candidate where
  name : String
  value : Option Int
deriving DecidableEq, Repr

/-- The match set of `checkResults` (`mite-new.js` line 85-87): candidates whose
(truthy, i.e. non-empty) name contains the query as a case-insensitive
substring (`result.name && result.name.toUpperCase().indexOf(query.toUpperCase()) > -1`). -/
def matchSet (options : List Candidate) (query : String) : List Candidate :=
  options.filter (fun r =>
    r.name != "" && containsSeq (jsToUpper query).data (jsToUpper r.name).data)

/-- The closing hint printed by `checkResults` before `process.exit(1)`. -/
def usageMsg (type : String) : String :=
  "Use the exact name of an existing " ++ type ++ "s. List available " ++ type ++
  "s using \"mite " ++ type ++ "s\""

/-- `checkResults(options, query, type)` of `mite-new.js` lines 84-104: returns
the (console output, result) pair; the result is the singleton match list on a
unique match and `process.exit(1)` (modelled as `.error 1`) otherwise. -/
def checkResults (options : List Candidate) (query type : String) :
    List String × Except Nat (List Candidate) :=
  let searchResults := matchSet options query
  if searchResults.length = 1 then
    ([], .ok searchResults)
  else if searchResults.length = 0 then
    (["No " ++ type ++ "s found that match \"" ++ query ++ "\".", usageMsg type],
     .error 1)
  else
    (("Found multiple " ++ type ++ "s matching  \"" ++ query ++ "\":")
       :: searchResults.map (fun current => "- " ++ current.name)
       ++ [usageMsg type],
     .error 1)

/-- Spec-following match predicate, used only to compare the specification's
words against the code: a candidate matches when its name contains the query as
a case-insensitive substring (no non-emptiness requirement on the name). -/
def specMatches (c : Candidate) (query : String) : Prop :=
  (jsToUpper query).data <:+: (jsToUpper c.name).data

end MiteCli

namespace MiteCli

/-! ## Customers list pipeline (`src/unnamed/part_000`, the customers command) -/

/-- The valid values of the `--sort` option (`SORT_OPTIONS`). -/
def SORT_OPTIONS : List String :=
  ["id", "name", "updated_at", "created_at", "hourly_rate", "rate"]

/-- The user-facing sort key alias resolution inside the sort comparator
(lines 153-156): `rate` maps to the underlying attribute `hourly_rate`. -/
def resolveSortKey (key : String) : String :=
  if key = "rate" then "hourly_rate" else key

/-- `String(a[key]).toLowerCase()` for the resolved sort key: the
case-insensitively compared string form of the sort attribute (lines 157-158). -/
def sortVal (sortKey : String) (r : Record) : String :=
  jsToLower (getAttr r (resolveSortKey sortKey)).jsString

/-- The sort comparator of lines 149-167.  `none` models a falsy
`program.sort` (the `if (!program.sort) return 0` guard). -/
def comparator (sort : Option String) (a b : Record) : Int :=
  match sort with
  | none => 0
  | some s =>
    let val1 := sortVal s a
    let val2 := sortVal s b
    if val1 > val2 then 1
    else if val1 < val2 then -1
    else 0

/-- The Sort step: `Array.prototype.sort(comparator)`, which ES2019 requires to
be a stable sort; embedded as the stable `List.mergeSort` with the ordering
`comparator a b ≤ 0`. -/
def sortStep (sort : Option String) (rs : List Record) : List Record :=
  rs.mergeSort (fun a b => decide (comparator sort a b ≤ 0))

/-- The tokens the `--archived` coercion treats as truthy (lines 71-78, and the
identical coercion in `customer-update.js`). -/
def truthyTokens : List String := ["true", "yes", "ja", "ok", "1"]

/-- The `--archived` option coercion applied to a given string value:
`['true', 'yes', 'ja', 'ok', '1'].indexOf(val.toLowerCase()) > -1`. -/
def parseArchivedValue (val : String) : Bool :=
  truthyTokens.contains (jsToLower val)

/-- The `--archived` option as seen by the program: stays `null` (`none`) when
the option is not given, otherwise the coerced boolean. -/
def parseArchived : Option String → Option Bool
  | none => none
  | some val => some (parseArchivedValue val)

/-- The filter callback of lines 143-148: with `program.archived === null`
every record passes, otherwise `customer.archived === program.archived`
(strict equality against a boolean). -/
def archivedPred (archived : Option Bool) (r : Record) : Bool :=
  match archived with
  | none => true
  | some b => getAttr r "archived" == Value.bool b

/-- The Filter step: `customers.filter(pred)`. -/
def filterStep (pred : Record → Bool) (rs : List Record) : List Record :=
  rs.filter pred

end MiteCli

namespace MiteCli

/-! ## Column catalog, cell formatters and grid construction -/

/-- The formatter variants occurring in the column catalog. -/
inductive CellFormat
  | note
  | rate
deriving DecidableEq, Repr

/-- A column catalog entry (`COLUMNS_OPTIONS` values, lines 23-62). -/
structure ColumnDef where
  label : String
  attr : String
  width : Option Nat := none
  alignment : Option String := none
  wrapWord : Bool := false
  format : Option CellFormat := none
deriving DecidableEq, Repr

/-- Two-digit rendering of the cents remainder. -/
def twoDigits (n : Int) : String :=
  if n < 10 then "0" ++ toString n else toString n

/-- Modelled from the spec: `formater.budget(BUDGET_TYPE.CENTS, n)` of the
missing `lib/formater` — "input is an integer number of minor currency units
(cents); output is a fixed-point decimal string" with two decimal places
(cents-to-major-unit conversion).  Non-numeric inputs are outside the spec's
contract for this formatter and fall back to the JS string coercion. -/
def formaterBudget : Value → String
  | .num n => toString (n / 100) ++ "." ++ twoDigits (n % 100)
  | v => v.jsString

/-- The `rate` column formatter of lines 51-56: a falsy value renders as the
placeholder `"-"`, otherwise `formater.budget(BUDGET_TYPE.CENTS, value || 0)`. -/
def rateFormat (value : Value) : String :=
  if value.falsy then "-"
  else formaterBudget value

/-- Modelled from the spec: `formater.note` of the missing `lib/formater` —
"input is an arbitrary string; output is the same string, annotated with a
wrap policy"; the wrap annotation only affects table layout, so the cell text
is the string form of the input. -/
def applyFormat : CellFormat → Value → String
  | .note, v => v.jsString
  | .rate, v => rateFormat v

/-- The column catalog `COLUMNS_OPTIONS` (lines 23-62) as an association list
from column name to definition. -/
def COLUMNS_OPTIONS : List (String × ColumnDef) :=
  [("created_at", {label := "created at", attr := "created_at"}),
   ("id", {label := "id", attr := "id", width := some 10,
           alignment := some "right"}),
   ("name", {label := "name", attr := "name"}),
   ("note", {label := "Note", attr := "note", width := some 50,
             wrapWord := true, alignment := some "left",
             format := some .note}),
   ("rate", {label := "rate", attr := "hourly_rate", width := some 10,
             alignment := some "right", format := some .rate}),
   ("updated_at", {label := "updated at", attr := "updated_at"})]

/-- `COLUMNS_OPTIONS[attrName]` lookup. -/
def catalogLookup (attrName : String) : Option ColumnDef :=
  COLUMNS_OPTIONS.lookup attrName

/-- The column validation of lines 169-179: each requested name is looked up in
the catalog; an unknown name prints an error and calls `process.exit(2)`
(modelled as `.error 2`, raised at the first unknown name). -/
def resolveColumns : List String → Except Nat (List ColumnDef)
  | [] => .ok []
  | attrName :: rest =>
    match catalogLookup attrName with
    | none => .error 2
    | some columnDefinition =>
      match resolveColumns rest with
      | .error c => .error c
      | .ok cds => .ok (columnDefinition :: cds)

/-- A chalk style marking attached to a cell. -/
inductive Style
  | grey
  | bold
deriving DecidableEq, Repr

/-- A grid cell: the underlying value together with its style markings
(`chalk.grey` / `chalk.bold` wrappers of the source). -/
structure Cell where
  value : Value
  styles : List Style
deriving DecidableEq, Repr

/-- Applying a chalk style to a cell. -/
def addStyle (st : Style) (c : Cell) : Cell :=
  ⟨c.value, st :: c.styles⟩

/-- One projected cell of a data row (lines 183-189): the formatted value when
the column has a formatter, the raw attribute value otherwise; no style yet. -/
def projectCell (item : Record) (cd : ColumnDef) : Cell :=
  match cd.format with
  | some f => ⟨.str (applyFormat f (getAttr item cd.attr)), []⟩
  | none => ⟨getAttr item cd.attr, []⟩

/-- One data row of the grid (lines 182-194): the projected cells, each wrapped
in `chalk.grey` when the record's `archived` attribute is truthy. -/
def buildRow (columns : List ColumnDef) (item : Record) : List Cell :=
  let row := columns.map (projectCell item)
  if (getAttr item "archived").falsy then row
  else row.map (addStyle .grey)

/-- The header row (lines 197-201): the column labels, each `chalk.bold`. -/
def headerRow (columns : List ColumnDef) : List Cell :=
  columns.map (fun cd => addStyle .bold ⟨.str cd.label, []⟩)

/-- The final grid (`tableData`, lines 182-201): header row first, then one row
per surviving record. -/
def tableData (items : List Record) (columns : List ColumnDef) :
    List (List Cell) :=
  headerRow columns :: items.map (buildRow columns)

end MiteCli


namespace MiteCli

/-! ## The customers command, end to end (`src/unnamed/part_000`) -/

/-- The output format selected with `-f, --format` (validation of the format
string itself happens in the external `lib/data-output`). -/
inductive OutputFormat
  | table
  | csv
  | json
deriving DecidableEq, Repr

/-- The plain text content of a cell (the formatted value, styles dropped). -/
def cellText (c : Cell) : String :=
  c.value.jsString

/-- ANSI escape sequence chalk uses for grey (dimmed) text. -/
def greyCode : String := "\x1b[90m"

/-- ANSI escape sequence chalk uses for bold text. -/
def boldCode : String := "\x1b[1m"

/-- ANSI reset sequence. -/
def resetCode : String := "\x1b[0m"

/-- Rendering of one styled cell in the color-capable table format: the style
markings become ANSI codes around the text. -/
def renderStyledCell (c : Cell) : String :=
  (if c.styles.contains .bold then boldCode else "") ++
  (if c.styles.contains .grey then greyCode else "") ++
  cellText c ++
  (if c.styles.isEmpty then "" else resetCode)

/-- Minimal JSON string escaping (backslash and double quote). -/
def jsonEscapeChar (c : Char) : String :=
  if c = '\\' then "\\\\"
  else if c = '"' then "\\\""
  else String.singleton c

/-- A JSON string literal for a cell's text. -/
def jsonString (s : String) : String :=
  "\"" ++ String.join (s.data.map jsonEscapeChar) ++ "\""

/-- Modelled from the spec: `DataOutput.formatData(tableData, format, columns)`
of the missing `lib/data-output`.  Only the properties the claims mention are
modelled: the color-capable `table` format renders the style markings as ANSI
codes, while `csv` and `json` use only the plain text content of each cell
(style markings silently ignored); width/alignment auto-sizing of the table
format is not modelled. -/
def formatData (grid : List (List Cell)) (fmt : OutputFormat) : String :=
  match fmt with
  | .table =>
    String.intercalate "\n"
      (grid.map (fun row => String.intercalate "  " (row.map renderStyledCell)))
  | .csv =>
    String.intercalate "\n"
      (grid.map (fun row => String.intercalate "," (row.map cellText)))
  | .json =>
    "[" ++ String.intercalate ","
      (grid.map (fun row =>
        "[" ++ String.intercalate "," (row.map (fun c => jsonString (cellText c)))
        ++ "]"))
    ++ "]"

/-- Removing every style marking from a grid (what a color-blind format sees). -/
def stripStyles (grid : List (List Cell)) : List (List Cell) :=
  grid.map (fun row => row.map (fun c => ⟨c.value, []⟩))

/-- Observable events of one run of the customers command, in order. -/
inductive Event
  | fetch
  | print (s : String)
deriving DecidableEq, Repr

/-- How a run of a command ends. -/
inductive Outcome
  | exited (code : Nat)
  | success
deriving DecidableEq, Repr

/-- The `--sort` option coercion (lines 101-111): a value outside
`SORT_OPTIONS` prints an error and calls `process.exit(2)` during argument
parsing; an absent option keeps the default `'name'`. -/
def parseSortArg : Option String → Except Nat String
  | none => .ok "name"
  | some value =>
    if SORT_OPTIONS.contains value then .ok value else .error 2

/-- JS `str.split(',')` on the character list: splitting on every comma,
keeping empty groups (so the empty string splits to one empty group). -/
def splitCommaChars : List Char → List (List Char)
  | [] => [[]]
  | c :: rest =>
    let r := splitCommaChars rest
    if c = ',' then [] :: r
    else
      match r with
      | [] => [[c]]
      | g :: gs => (c :: g) :: gs

/-- JS `str.split(',')`. -/
def jsSplitComma (str : String) : List String :=
  (splitCommaChars str.data).map (fun l => ⟨l⟩)

/-- The `--columns` option coercion (line 83):
`str.split(',').filter(v => v).join(',')`. -/
def normalizeColumns (str : String) : String :=
  String.intercalate "," ((jsSplitComma str).filter (fun v => v != ""))

/-- The customers command (`src/unnamed/part_000`), as the ordered list of its
observable events plus its outcome.  Argument coercions run during
`program.parse` (before the fetch); `storeRecords` is the array the opaque
Record Store returns for the fetch (`miteApi.getCustomers`); filter, sort,
column validation and grid construction follow the fetch, in source order
(lines 140-203). -/
def runCustomers (sortArg archivedArg columnsArg : Option String)
    (fmt : OutputFormat) (storeRecords : List Record) :
    List Event × Outcome :=
  match parseSortArg sortArg with
  | .error c => ([], .exited c)
  | .ok sortKey =>
    let archived := archivedArg.map parseArchivedValue
    let columnsStr := (columnsArg.map normalizeColumns).getD "id,name,rate,note"
    let items := sortStep (some sortKey)
      (filterStep (archivedPred archived) storeRecords)
    match resolveColumns (jsSplitComma columnsStr) with
    | .error c => ([.fetch], .exited c)
    | .ok columns =>
      ([.fetch, .print (formatData (tableData items columns) fmt)], .success)

end MiteCli

namespace MiteCli

/-! ## Entity creation flow (`src/source/mite-new.js`) -/

/-- A project record as used by `getProjectChoices`: `customer_name` is `none`
when the attribute is absent or null. -/
structure Project where
  id : Int
  name : String
  customer_name : Option String
deriving DecidableEq, Repr

/-- A service record as used by `getServiceChoices`. -/
structure Service where
  id : Int
  name : String
  billable : Bool
deriving DecidableEq, Repr

/-- The display name of a project choice (lines 46-55): the project name,
suffixed with the customer name in parentheses when that name is truthy. -/
def projectChoiceName (p : Project) : String :=
  match p.customer_name with
  | some cn => if cn != "" then p.name ++ " (" ++ cn ++ ")" else p.name
  | none => p.name

/-- `chalk.yellow.bold('$')` as rendered into a service choice name. -/
def dollarBadge : String := "\x1b[33m\x1b[1m$\x1b[22m\x1b[39m"

/-- The display name of a service choice (lines 68-73): the service name,
suffixed with the (chalk-styled) dollar sign when the service is billable. -/
def serviceChoiceName (s : Service) : String :=
  if s.billable then s.name ++ " " ++ dollarBadge else s.name

/-- `getProjectChoices` (lines 43-63): one candidate per project carrying the
project's id, followed by the synthetic `'– (no project)'` candidate whose
value is `null`. -/
def getProjectChoices (projects : List Project) : List Candidate :=
  projects.map (fun p => ⟨projectChoiceName p, some p.id⟩)
    ++ [⟨"– (no project)", none⟩]

/-- `getServiceChoices` (lines 65-82): one candidate per service carrying the
service's id, followed by the synthetic `'– (no service)'` candidate whose
value is `null`. -/
def getServiceChoices (services : List Service) : List Candidate :=
  services.map (fun s => ⟨serviceChoiceName s, some s.id⟩)
    ++ [⟨"– (no service)", none⟩]

/-- The time entry assembled by `cliMode` (lines 153-159). -/
structure Entry where
  project_id : Option Int
  note : Option String
  minutes : Option String
  service_id : Option Int
  date_at : String
deriving DecidableEq, Repr

/-- `searchResults[0].value` of the singleton list returned by a successful
resolution (the empty case is unreachable there). -/
def headValue : List Candidate → Option Int
  | c :: _ => c.value
  | [] => none

/-- JS `a || b` for an optional string `a`: `b` when `a` is falsy. -/
def jsOrStr (a : Option String) (b : Option String) : Option String :=
  match a with
  | some s => if s != "" then some s else b
  | none => b

/-- A falsy `entry.minutes` (`!entry.minutes`, line 176). -/
def minutesFalsy : Option String → Bool
  | none => true
  | some s => s == ""

/-- `cliMode` (lines 146-162): resolve the project query, then the service
query, and assemble the time entry from the two resolved identifiers; a failed
resolution is `process.exit(1)` inside `checkResults`.  Returns the collected
console output together with the result. -/
def cliMode (projects : List Candidate) (services : List Candidate)
    (note : Option String) (project service : String)
    (minutes date : Option String) (today : String) :
    List String × Except Nat Entry :=
  let pr := checkResults projects project "project"
  match pr.2 with
  | .error c => (pr.1, .error c)
  | .ok ps =>
    let sr := checkResults services service "service"
    match sr.2 with
    | .error c => (pr.1 ++ sr.1, .error c)
    | .ok ss =>
      (pr.1 ++ sr.1,
       .ok {project_id := headValue ps, note := note, minutes := minutes,
            service_id := headValue ss, date_at := date.getD today})

/-- Detection of the trailing `'+'` on the minutes value (lines 183-187):
whether a tracker should start, and the minutes with the `'+'` stripped. -/
def detectPlus (minutes : Option String) : Bool × Option String :=
  match minutes with
  | some s =>
    if s.endsWith "+" then (true, some (s.dropRight 1)) else (false, minutes)
  | none => (false, none)

/-- The result of one direct-mode run of `mite new`: console output, the list
of `mite.addTimeEntry` mutation requests issued, and the outcome.  The model
covers the flow up to issuing the mutation; the handling of the store's
response (lines 190-209) is not needed by the claims. -/
structure NewRun where
  logs : List String
  mutations : List Entry
  outcome : Outcome
deriving DecidableEq, Repr

/-- The direct (non-interactive) flow of `main` (lines 164-190, the
`cliMode` branch taken when a project argument is given): resolution failure
terminates with its exit code and no mutation; empty minutes logs a message
and creates nothing; otherwise exactly one `addTimeEntry` request is issued. -/
def mainCli (projects : List Candidate) (services : List Candidate)
    (note : Option String) (project service : String)
    (minutes date : Option String) (today : String) : NewRun :=
  match cliMode projects services note project service minutes date today with
  | (logs, .error c) => {logs := logs, mutations := [], outcome := .exited c}
  | (logs, .ok entry0) =>
    let entry1 := {entry0 with note := jsOrStr entry0.note note}
    if minutesFalsy entry1.minutes then
      {logs := logs ++
         ["no time entry created due to empty project id or empty minutes"],
       mutations := [], outcome := .success}
    else
      let sp := detectPlus entry1.minutes
      {logs := logs, mutations := [{entry1 with minutes := sp.2}],
       outcome := .success}

end MiteCli

namespace MiteCli

/-! ## Shell completion module
(`src/source/lib/auto-complete/completions/customer-update.js`) -/

/-- A flag proposal of the completion module (`defaults` entries). -/
structure CompletionFlag where
  name : String
  description : String
deriving DecidableEq, Repr

/-- The `defaults` list of the completion module (lines 7-32). -/
def cuDefaults : List CompletionFlag :=
  [⟨"--archived", "archive or unarchive a project"⟩,
   ⟨"--hourly-rate", "change the hourly-rate"⟩,
   ⟨"--name", "change the name of the project"⟩,
   ⟨"--note", "change the note of the project"⟩,
   ⟨"--update-entries", "update time entries when hourly_rate was changed"⟩,
   ⟨"--help", "show help message"⟩]

/-- One element of the heterogeneous completion array: either a plain string
(the early-return value proposals) or a name/description object. -/
inductive Completion
  | raw (s : String)
  | flag (name description : String)
deriving DecidableEq, Repr

/-- A thrown JS error.  Assigning to a `const` binding before its declaration
is executed (the temporal dead zone) throws a `ReferenceError` naming the
binding. -/
inductive JsError
  | referenceError (binding : String)
deriving DecidableEq, Repr

/-- The exported completion function (lines 45-77).  The branch guarded by
`line.match` against the regex `--archived` (an unanchored substring test)
assigns to `customerOptions.archived`, but `customerOptions` is a
`const` declared only afterwards (line 70), so reaching that branch throws a
`ReferenceError`; `customers` is the list the store would return. -/
def customerUpdateComplete (prev line : String)
    (customers : List (Int × String)) : Except JsError (List Completion) :=
  if prev = "--archived" then .ok [.raw "yes", .raw "no"]
  else if prev = "--name" then .ok [.raw "name"]
  else if prev = "--note" then .ok [.raw "note"]
  else if prev = "--hourly-rate" then .ok [.raw "0.00"]
  else
    let options := cuDefaults.filter (fun o => !jsIncludes line o.name)
    if jsIncludes line "--archived" then
      .error (.referenceError "customerOptions")
    else
      let customerOptions :=
        customers.map (fun c => Completion.flag (toString c.1) c.2)
      .ok (customerOptions ++ options.map (fun o => Completion.flag o.name o.description))

end MiteCli

namespace MiteCli

/-! ## Helper lemmas -/

/-- `containsSeq` decides substring (contiguous subsequence) containment. -/
theorem containsSeq_iff (needle : List Char) :
    ∀ hay : List Char, containsSeq needle hay = true ↔ needle <:+: hay := by
  intro hay
  induction hay with
  | nil =>
    simp [containsSeq, List.isEmpty_iff]
  | cons c rest ih =>
    simp [containsSeq, List.infix_cons_iff, ih]

/-- A relation that holds everywhere holds pairwise on every list. -/
theorem pairwiseOfForall {α : Type} {r : α → α → Prop} (h : ∀ a b, r a b) :
    ∀ l : List α, l.Pairwise r
  | [] => .nil
  | _ :: t => .cons (fun b _ => h _ b) (pairwiseOfForall h t)

/-- The comparator orders two records exactly by their resolved,
case-insensitively compared sort values. -/
theorem comparator_le_iff (k : String) (a b : Record) :
    comparator (some k) a b ≤ 0 ↔ sortVal k a ≤ sortVal k b := by
  simp only [comparator]
  split_ifs with h1 h2
  · constructor
    · intro h; omega
    · intro h; exact absurd h (not_le.mpr h1)
  · simp [le_of_lt h2]
  · simp [not_lt.mp h1]

/-- Equal sort values make the comparator return 0. -/
theorem comparator_eq_zero (k : String) (a b : Record)
    (h : sortVal k a = sortVal k b) : comparator (some k) a b = 0 := by
  simp [comparator, h]

/-- A non-unique match set makes `checkResults` terminate with exit code 1. -/
theorem checkResults_snd_error {options : List Candidate} {query type : String}
    (h : (matchSet options query).length ≠ 1) :
    (checkResults options query type).2 = .error 1 := by
  by_cases h0 : (matchSet options query).length = 0 <;>
    simp [checkResults, h, h0]

/-- A requested column name absent from the catalog makes the column
validation call `process.exit(2)`. -/
theorem resolveColumns_error :
    ∀ {names : List String}, (∃ n ∈ names, catalogLookup n = none) →
    resolveColumns names = .error 2 := by
  intro names h
  induction names with
  | nil => simp at h
  | cons n rest ih =>
    obtain ⟨m, hm, hnone⟩ := h
    rcases List.mem_cons.mp hm with hm | hm
    · subst hm
      simp [resolveColumns, hnone]
    · cases hcat : catalogLookup n with
      | none => simp [resolveColumns, hcat]
      | some cd => simp [resolveColumns, hcat, ih ⟨m, hm, hnone⟩]

end MiteCli

namespace MiteCli

/-! ## Claim theorems -/

/-- C1 (counterexample): the claim's match rule ("candidates whose name
contains the query as a case-insensitive substring") disagrees with the code
when a candidate's name is the empty string: the empty name contains the empty
query, so per the claim the match set would be that single candidate and the
resolution would return it, but `checkResults` (which additionally requires a
truthy `result.name`) finds no match and exits with code 1. -/
theorem checkResults_claim_counterexample :
    specMatches ⟨"", none⟩ ""
    ∧ matchSet [⟨"", none⟩] "" = []
    ∧ (checkResults [⟨"", none⟩] "" "project").2 = .error 1 := by
  exact ⟨List.infix_rfl, rfl, rfl⟩

/-- C1 (amended): the Name Resolver's match set consists of exactly the
candidates with a non-empty name whose name contains the query as a
case-insensitive substring; an empty match set reports no matches and exits
with code 1, a unique match is returned, and a plural match set lists every
matching name and exits with the same code 1 — never silently picking one. -/
theorem checkResults_resolution (options : List Candidate) (query type : String) :
    (∀ c, c ∈ matchSet options query ↔
       c ∈ options ∧ c.name ≠ ""
         ∧ (jsToUpper query).data <:+: (jsToUpper c.name).data)
    ∧ (matchSet options query = [] →
        (checkResults options query type).2 = .error 1
        ∧ ("No " ++ type ++ "s found that match \"" ++ query ++ "\".")
            ∈ (checkResults options query type).1)
    ∧ (∀ c, matchSet options query = [c] →
        (checkResults options query type).2 = .ok [c])
    ∧ (2 ≤ (matchSet options query).length →
        (checkResults options query type).2 = .error 1
        ∧ ∀ c ∈ matchSet options query,
            ("- " ++ c.name) ∈ (checkResults options query type).1) := by
  refine ⟨?_, ?_, ?_, ?_⟩
  · intro c
    simp [matchSet, List.mem_filter, containsSeq_iff, and_assoc]
  · intro h
    simp [checkResults, h]
  · intro c h
    simp [checkResults, h]
  · intro h
    have h1 : (matchSet options query).length ≠ 1 := by omega
    have h0 : (matchSet options query).length ≠ 0 := by omega
    refine ⟨checkResults_snd_error h1, ?_⟩
    intro c hc
    simp [checkResults, h1, h0, List.mem_cons, List.mem_append, List.mem_map]
    exact Or.inr (Or.inl ⟨c, hc, rfl⟩)

/-- C1 (witness): the spec's own §8 vectors — query `"zzz"` fails with exit 1,
query `"Acme Corp"` resolves uniquely to the value-2 candidate, and query
`"acme"` is an ambiguity failure listing `- Acme` among the matches. -/
theorem checkResults_resolution_witness :
    (checkResults [⟨"Acme", some 1⟩, ⟨"Acme Corp", some 2⟩] "zzz" "project").2
      = .error 1
    ∧ (checkResults [⟨"Acme", some 1⟩, ⟨"Acme Corp", some 2⟩] "Acme Corp"
        "project").2 = .ok [⟨"Acme Corp", some 2⟩]
    ∧ (checkResults [⟨"Acme", some 1⟩, ⟨"Acme Corp", some 2⟩] "acme"
        "project").2 = .error 1
    ∧ ("- Acme" ∈ (checkResults [⟨"Acme", some 1⟩, ⟨"Acme Corp", some 2⟩]
        "acme" "project").1) := by
  refine ⟨((checkResults_resolution _ "zzz" "project").2.1 (by decide)).1,
          (checkResults_resolution _ "Acme Corp" "project").2.2.1 _ (by decide),
          ((checkResults_resolution _ "acme" "project").2.2.2 (by decide)).1,
          ((checkResults_resolution _ "acme" "project").2.2.2 (by decide)).2
            ⟨"Acme", some 1⟩ (by decide)⟩

/-- C3: the Filter step keeps exactly the records satisfying the predicate, in
their original relative order (a sublist of the input); the archived criterion
imposes no constraint when unset and demands strict equality of the `archived`
attribute with the configured boolean when set. -/
theorem filterStep_spec (p : Record → Bool) (R : List Record) :
    (filterStep p R).Sublist R
    ∧ (∀ r, r ∈ filterStep p R ↔ r ∈ R ∧ p r = true)
    ∧ (∀ r, archivedPred none r = true)
    ∧ (∀ b r, archivedPred (some b) r = true ↔
        getAttr r "archived" = Value.bool b) := by
  refine ⟨List.filter_sublist R, fun r => List.mem_filter,
    fun r => rfl, fun b r => ?_⟩
  simp [archivedPred]

/-- C3 (witness): filtering two records on `archived = true` keeps the
archived one. -/
theorem filterStep_spec_witness :
    [("id", Value.num 2), ("archived", Value.bool true)]
      ∈ filterStep (archivedPred (some true))
          [[("id", Value.num 2), ("archived", Value.bool true)],
           [("id", Value.num 1), ("archived", Value.bool false)]] := by
  exact ((filterStep_spec (archivedPred (some true))
    [[("id", Value.num 2), ("archived", Value.bool true)],
     [("id", Value.num 1), ("archived", Value.bool false)]]).2.1 _).mpr
    (by decide)

/-- C5: the archived-filter argument coercion maps a given string to `true`
exactly when its lower-cased form is one of `true`, `yes`, `ja`, `ok`, `1`
(hence the tokens are matched case-insensitively), maps every other string to
`false`, and leaves the value `null` when the option is not given. -/
theorem parseArchived_spec (s : String) :
    parseArchived none = none
    ∧ (parseArchived (some s) = some true ↔
        jsToLower s ∈ (["true", "yes", "ja", "ok", "1"] : List String))
    ∧ (parseArchived (some s) = some false ↔
        jsToLower s ∉ (["true", "yes", "ja", "ok", "1"] : List String)) := by
  refine ⟨rfl, ?_, ?_⟩ <;>
    simp [parseArchived, parseArchivedValue, truthyTokens, List.elem_eq_mem]

/-- C5 (witness): `TRUE` (case-insensitive token) coerces to `true`, `no`
coerces to `false`, an absent option stays unset. -/
theorem parseArchived_spec_witness :
    parseArchived (some "TRUE") = some true
    ∧ parseArchived (some "no") = some false
    ∧ parseArchived none = none := by
  exact ⟨(parseArchived_spec "TRUE").2.1.mpr (by decide),
         (parseArchived_spec "no").2.2.mpr (by decide),
         (parseArchived_spec "x").1⟩

/-- C6: the rate formatter renders `0`, `null` and every other falsy/missing
value as the placeholder `"-"` (never `"0.00"`), and renders the integer cents
value `1050` as the fixed-point string `"10.50"`. -/
theorem rateFormat_spec :
    (∀ v : Value, v.falsy = true → rateFormat v = "-")
    ∧ rateFormat (Value.num 0) = "-"
    ∧ rateFormat Value.null = "-"
    ∧ rateFormat Value.undefined = "-"
    ∧ rateFormat (Value.num 1050) = "10.50" := by
  refine ⟨?_, by decide, by decide, by decide, by decide⟩
  intro v h
  simp [rateFormat, h]

/-- C6 (witness): the falsy value `false` also renders as the placeholder. -/
theorem rateFormat_spec_witness : rateFormat (Value.bool false) = "-" :=
  rateFormat_spec.1 (Value.bool false) rfl

end MiteCli

namespace MiteCli

/-- C2: the Sort step permutes the records into an order that is sorted by the
case-insensitively compared string form of the resolved sort attribute; the
comparator returns 0 for equal keys and the sort is stable (a pair of records
with equal keys that appears in order in the input still appears in that order
in the output); a falsy sort key performs no reordering at all; and the
user-facing key `rate` resolves to the underlying attribute `hourly_rate`. -/
theorem sortStep_spec (k : String) (R : List Record) :
    List.Perm (sortStep (some k) R) R
    ∧ (sortStep (some k) R).Pairwise (fun a b => sortVal k a ≤ sortVal k b)
    ∧ (∀ a b, sortVal k a = sortVal k b → comparator (some k) a b = 0)
    ∧ (∀ a b, sortVal k a = sortVal k b →
        List.Sublist [a, b] R → List.Sublist [a, b] (sortStep (some k) R))
    ∧ sortStep none R = R
    ∧ resolveSortKey "rate" = "hourly_rate"
    ∧ (∀ r, sortVal "rate" r = jsToLower (getAttr r "hourly_rate").jsString) := by
  have hle : ∀ a b : Record,
      (decide (comparator (some k) a b ≤ 0) = true) ↔ sortVal k a ≤ sortVal k b := by
    intro a b
    rw [decide_eq_true_iff]
    exact comparator_le_iff k a b
  have htrans : ∀ a b c : Record,
      decide (comparator (some k) a b ≤ 0) = true →
      decide (comparator (some k) b c ≤ 0) = true →
      decide (comparator (some k) a c ≤ 0) = true := by
    intro a b c hab hbc
    exact (hle a c).mpr (le_trans ((hle a b).mp hab) ((hle b c).mp hbc))
  have htotal : ∀ a b : Record,
      (decide (comparator (some k) a b ≤ 0)
        || decide (comparator (some k) b a ≤ 0)) = true := by
    intro a b
    rcases le_total (sortVal k a) (sortVal k b) with h | h
    · simp only [Bool.or_eq_true]
      exact Or.inl ((hle a b).mpr h)
    · simp only [Bool.or_eq_true]
      exact Or.inr ((hle b a).mpr h)
  refine ⟨List.mergeSort_perm R _, ?_, comparator_eq_zero k, ?_, ?_, rfl,
    fun r => rfl⟩
  · exact (List.sorted_mergeSort htrans htotal R).imp (fun h => (hle _ _).mp h)
  · intro a b hab hsub
    exact List.pair_sublist_mergeSort htrans htotal
      ((hle a b).mpr (le_of_eq hab)) hsub
  · exact List.mergeSort_of_sorted
      (pairwiseOfForall (fun a b => rfl) R)

/-- C2 (witness): two records whose names differ only in case keep their input
order under `--sort name`, their comparator value is 0, and a falsy sort key
leaves an (unsorted) list untouched. -/
theorem sortStep_spec_witness :
    List.Sublist [[("name", Value.str "A")], [("name", Value.str "a")]]
      (sortStep (some "name") [[("name", Value.str "A")], [("name", Value.str "a")]])
    ∧ comparator (some "name") [("name", Value.str "A")] [("name", Value.str "a")] = 0
    ∧ sortStep none [[("name", Value.str "B")], [("name", Value.str "A")]]
        = [[("name", Value.str "B")], [("name", Value.str "A")]] := by
  refine ⟨(sortStep_spec "name" _).2.2.2.1 _ _ (by decide) (List.Sublist.refl _),
          (sortStep_spec "name" []).2.2.1 _ _ (by decide),
          (sortStep_spec "name" [[("name", Value.str "B")],
            [("name", Value.str "A")]]).2.2.2.2.1⟩

/-- C4 (counterexample): with an unresolvable column name (`--columns bogus`)
the command still performs the Record Store fetch before reporting the error —
the trace contains the fetch event — so the column error is not reported
before any record is fetched, contradicting the claim (the exit code is 2 and
no output is printed, as claimed). -/
theorem runCustomers_fetch_counterexample :
    runCustomers none none (some "bogus") OutputFormat.table []
      = ([Event.fetch], Outcome.exited 2)
    ∧ Event.fetch ∈ (runCustomers none none (some "bogus")
        OutputFormat.table []).1 := by
  exact ⟨rfl, by decide⟩

/-- C4 (amended): an invalid sort key is reported during argument parsing,
before any record is fetched: the run exits with code 2 with an empty event
trace.  An unresolvable column name is reported only after the records have
been fetched, but still before any Grid is produced: the run exits with code 2
and its trace is exactly the fetch event — no output event is emitted. -/
theorem runCustomers_staging :
    (∀ v archivedArg columnsArg fmt storeRecords, v ∉ SORT_OPTIONS →
        runCustomers (some v) archivedArg columnsArg fmt storeRecords
          = ([], Outcome.exited 2))
    ∧ (∀ sortArg archivedArg columnsArg fmt storeRecords,
        parseSortArg sortArg ≠ .error 2 →
        (∃ n ∈ jsSplitComma ((columnsArg.map normalizeColumns).getD
            "id,name,rate,note"), catalogLookup n = none) →
        runCustomers sortArg archivedArg columnsArg fmt storeRecords
          = ([Event.fetch], Outcome.exited 2)) := by
  constructor
  · intro v archivedArg columnsArg fmt storeRecords h
    simp [runCustomers, parseSortArg, List.elem_eq_mem, h]
  · intro sortArg archivedArg columnsArg fmt storeRecords hsort hcols
    cases hps : parseSortArg sortArg with
    | error c =>
      have hc2 : c = 2 := by
        cases sortArg with
        | none => simp [parseSortArg] at hps
        | some v =>
          simp only [parseSortArg] at hps
          split at hps
          · exact absurd hps (by simp)
          · injection hps with h2
            omega
      subst hc2
      exact absurd hps hsort
    | ok key =>
      simp [runCustomers, hps, resolveColumns_error hcols]

/-- C4 (witness): the invalid sort key `bogus` exits with code 2 and an empty
trace (no fetch, no output); the invalid column name `nope` exits with code 2
after the fetch, with no output event. -/
theorem runCustomers_staging_witness :
    runCustomers (some "bogus") none none OutputFormat.table []
      = ([], Outcome.exited 2)
    ∧ runCustomers none none (some "nope") OutputFormat.csv
        [[("id", Value.num 1)]] = ([Event.fetch], Outcome.exited 2) := by
  refine ⟨runCustomers_staging.1 "bogus" none none OutputFormat.table []
      (by decide), ?_⟩
  refine runCustomers_staging.2 none none (some "nope") OutputFormat.csv
    [[("id", Value.num 1)]] (by simp [parseSortArg]) ⟨"nope", by decide, by decide⟩

end MiteCli

namespace MiteCli

/-- C7: every cell of the row built for an archived record carries the grey
(dim) marking, whatever columns were selected; the grid's first row is the
header, whose cells are all bold, built independently of the data records; the
`csv` and `json` serializations ignore style markings entirely (stripping all
styles changes nothing), while the `table` serialization of a grey-marked cell
contains the grey ANSI marking (the marking survives serialization). -/
theorem gridStyles_spec (items : List Record) (columns : List ColumnDef) :
    (∀ item, item ∈ items → (getAttr item "archived").falsy = false →
        buildRow columns item ∈ tableData items columns
        ∧ ∀ c ∈ buildRow columns item, Style.grey ∈ c.styles)
    ∧ (tableData items columns).head? = some (headerRow columns)
    ∧ (∀ c ∈ headerRow columns, Style.bold ∈ c.styles)
    ∧ formatData (stripStyles (tableData items columns)) OutputFormat.csv
        = formatData (tableData items columns) OutputFormat.csv
    ∧ formatData (stripStyles (tableData items columns)) OutputFormat.json
        = formatData (tableData items columns) OutputFormat.json
    ∧ (∀ c : Cell, Style.grey ∈ c.styles →
        ∃ pre post, renderStyledCell c = pre ++ greyCode ++ post) := by
  refine ⟨?_, rfl, ?_, ?_, ?_, ?_⟩
  · intro item hmem harch
    refine ⟨List.mem_cons_of_mem _ (List.mem_map_of_mem _ hmem), ?_⟩
    intro c hc
    have hrow : buildRow columns item
        = (columns.map (projectCell item)).map (addStyle .grey) := by
      simp [buildRow, harch]
    rw [hrow] at hc
    obtain ⟨c2, _, rfl⟩ := List.mem_map.mp hc
    exact List.mem_cons_self _ _
  · intro c hc
    obtain ⟨cd, _, rfl⟩ := List.mem_map.mp hc
    exact List.mem_cons_self _ _
  · simp only [formatData, stripStyles, List.map_map]
    refine congrArg _ (List.map_congr_left ?_)
    intro row _
    simp [Function.comp, List.map_map]
    rfl
  · simp only [formatData, stripStyles, List.map_map]
    refine congrArg (fun x => "[" ++ x ++ "]") (congrArg _ (List.map_congr_left ?_))
    intro row _
    simp [Function.comp, List.map_map]
    rfl
  · intro c h
    refine ⟨(if c.styles.contains .bold then boldCode else ""),
      cellText c ++ (if c.styles.isEmpty then "" else resetCode), ?_⟩
    simp [renderStyledCell, h, String.append_assoc]

/-- C7 (witness): for a one-column grid over a single archived record, the
lone data cell is grey-marked and the CSV serialization is unchanged by
stripping every style. -/
theorem gridStyles_spec_witness :
    Style.grey ∈ (Cell.mk (Value.num 2) [Style.grey]).styles
    ∧ formatData (stripStyles (tableData
          [[("id", Value.num 2), ("archived", Value.bool true)]]
          [{label := "id", attr := "id"}])) OutputFormat.csv
        = formatData (tableData
          [[("id", Value.num 2), ("archived", Value.bool true)]]
          [{label := "id", attr := "id"}]) OutputFormat.csv := by
  refine ⟨((gridStyles_spec
      [[("id", Value.num 2), ("archived", Value.bool true)]]
      [{label := "id", attr := "id"}]).1
        [("id", Value.num 2), ("archived", Value.bool true)]
        (by decide) (by decide)).2
        ⟨Value.num 2, [Style.grey]⟩ (by decide),
    (gridStyles_spec [[("id", Value.num 2), ("archived", Value.bool true)]]
      [{label := "id", attr := "id"}]).2.2.2.1⟩

/-- C8: in the direct entity-creation flow, a failed resolution of either the
project or the service query (a match set without exactly one element) makes
the whole operation exit with code 1 and issue no mutation — no time entry is
created; moreover a failed project resolution terminates the flow before the
service resolution is even consulted: the run's result does not depend on the
service inputs at all. -/
theorem mainCli_spec :
    (∀ projects services note project service minutes date today,
        ((matchSet projects project).length ≠ 1
          ∨ (matchSet services service).length ≠ 1) →
        (mainCli projects services note project service minutes date
            today).mutations = []
        ∧ (mainCli projects services note project service minutes date
            today).outcome = Outcome.exited 1)
    ∧ (∀ projects services services2 note project service service2 minutes
          date today,
        (matchSet projects project).length ≠ 1 →
        mainCli projects services note project service minutes date today
          = mainCli projects services2 note project service2 minutes date
              today) := by
  constructor
  · intro projects services note project service minutes date today h
    rcases h with h | h
    · simp [mainCli, cliMode, checkResults_snd_error h]
    · by_cases hp : (matchSet projects project).length = 1
      · have hok : (checkResults projects project "project").2
            = .ok (matchSet projects project) := by
          simp [checkResults, hp]
        simp [mainCli, cliMode, hok, checkResults_snd_error h]
      · simp [mainCli, cliMode, checkResults_snd_error hp]
  · intro projects services services2 note project service service2 minutes
      date today h
    simp [mainCli, cliMode, checkResults_snd_error h]

/-- C8 (witness): an ambiguous project query (`"acme"` over two Acme
candidates) creates no time entry and exits with code 1, whatever the service
side holds. -/
theorem mainCli_spec_witness :
    (mainCli [⟨"Acme", some 1⟩, ⟨"Acme Corp", some 2⟩] [⟨"Dev", some 7⟩]
        (some "work") "acme" "dev" (some "30") none "2020-01-01").mutations = []
    ∧ (mainCli [⟨"Acme", some 1⟩, ⟨"Acme Corp", some 2⟩] [⟨"Dev", some 7⟩]
        (some "work") "acme" "dev" (some "30") none
        "2020-01-01").outcome = Outcome.exited 1 := by
  exact mainCli_spec.1 [⟨"Acme", some 1⟩, ⟨"Acme Corp", some 2⟩]
    [⟨"Dev", some 7⟩] (some "work") "acme" "dev" (some "30") none "2020-01-01"
    (Or.inl (by decide))

/-- C9: whenever the previous argument is none of the four special-cased flags
and the input line contains the substring `--archived`, the completion
function throws a `ReferenceError` (the assignment to the `const` binding
`customerOptions` happens before that binding is initialized) instead of
returning a completion list. -/
theorem customerUpdateComplete_throws :
    ∀ prev line (customers : List (Int × String)),
      prev ∉ (["--archived", "--name", "--note", "--hourly-rate"] :
        List String) →
      jsIncludes line "--archived" = true →
      customerUpdateComplete prev line customers
        = .error (.referenceError "customerOptions") := by
  intro prev line customers hprev harch
  have h1 : prev ≠ "--archived" := fun h => hprev (by simp [h])
  have h2 : prev ≠ "--name" := fun h => hprev (by simp [h])
  have h3 : prev ≠ "--note" := fun h => hprev (by simp [h])
  have h4 : prev ≠ "--hourly-rate" := fun h => hprev (by simp [h])
  simp [customerUpdateComplete, h1, h2, h3, h4, harch]

/-- C9 (witness): completing `mite customer update --archived ` with previous
argument `update` throws the `ReferenceError` on `customerOptions`. -/
theorem customerUpdateComplete_throws_witness :
    customerUpdateComplete "update" "mite customer update --archived " []
      = .error (.referenceError "customerOptions") :=
  customerUpdateComplete_throws "update" "mite customer update --archived "
    [] (by decide) (by decide)

/-- C10: both choice lists end with the synthetic null-valued candidate
(named `– (no project)` / `– (no service)`); every other candidate carries the
entity's id, a project candidate's name being the project name suffixed with
the customer name in parentheses when one is present; and a query whose match
set is exactly the synthetic candidate resolves successfully to that
candidate, whose identifier is null. -/
theorem choices_spec (projects : List Project) (services : List Service) :
    (getProjectChoices projects).getLast? = some ⟨"– (no project)", none⟩
    ∧ (getServiceChoices services).getLast? = some ⟨"– (no service)", none⟩
    ∧ (∀ c ∈ (getProjectChoices projects).dropLast, ∃ p ∈ projects,
        c.value = some p.id
        ∧ (p.customer_name = none → c.name = p.name)
        ∧ (∀ cn, p.customer_name = some cn → cn ≠ "" →
            c.name = p.name ++ " (" ++ cn ++ ")"))
    ∧ (∀ c ∈ (getServiceChoices services).dropLast, ∃ s ∈ services,
        c.value = some s.id)
    ∧ (∀ query, matchSet (getProjectChoices projects) query
          = [⟨"– (no project)", none⟩] →
        (checkResults (getProjectChoices projects) query "project").2
          = .ok [⟨"– (no project)", none⟩])
    ∧ (∀ query, matchSet (getServiceChoices services) query
          = [⟨"– (no service)", none⟩] →
        (checkResults (getServiceChoices services) query "service").2
          = .ok [⟨"– (no service)", none⟩]) := by
  refine ⟨List.getLast?_concat _, List.getLast?_concat _, ?_, ?_, ?_, ?_⟩
  · intro c hc
    rw [getProjectChoices, List.dropLast_concat] at hc
    obtain ⟨p, hp, rfl⟩ := List.mem_map.mp hc
    refine ⟨p, hp, rfl, ?_, ?_⟩
    · intro hnone
      simp [projectChoiceName, hnone]
    · intro cn hcn hne
      simp [projectChoiceName, hcn, hne]
  · intro c hc
    rw [getServiceChoices, List.dropLast_concat] at hc
    obtain ⟨sv, hs, rfl⟩ := List.mem_map.mp hc
    exact ⟨sv, hs, rfl⟩
  · intro query h
    simp [checkResults, h]
  · intro query h
    simp [checkResults, h]

/-- C10 (witness): with one real project (`Alpha`, customer `Acme`) and one
real billable service (`Dev`), the synthetic candidate closes each list and
the queries `no project` / `no service` resolve to the null-valued synthetic
candidates. -/
theorem choices_spec_witness :
    (getProjectChoices [⟨1, "Alpha", some "Acme"⟩]).getLast?
      = some ⟨"– (no project)", none⟩
    ∧ (checkResults (getProjectChoices [⟨1, "Alpha", some "Acme"⟩])
        "no project" "project").2 = .ok [⟨"– (no project)", none⟩]
    ∧ (checkResults (getServiceChoices [⟨7, "Dev", true⟩])
        "no service" "service").2 = .ok [⟨"– (no service)", none⟩] := by
  refine ⟨(choices_spec [⟨1, "Alpha", some "Acme"⟩] [⟨7, "Dev", true⟩]).1,
    (choices_spec [⟨1, "Alpha", some "Acme"⟩] [⟨7, "Dev", true⟩]).2.2.2.2.1
      "no project" (by decide),
    (choices_spec [⟨1, "Alpha", some "Acme"⟩] [⟨7, "Dev", true⟩]).2.2.2.2.2
      "no service" (by decide)⟩

end MiteCli
